import Mathlib

/-!
Verification of the capability lifecycle core of the bedrock-service-agent
module: the zcap refresh engine (lib/refresh.js), the ephemeral agent
provider (lib/serviceAgents.js), the rotating caches
(lib/serviceAgents.js, lib/documentStores.js) and the document store
(lib/DocumentStore.js).

The JavaScript source is shallowly embedded: times are epoch milliseconds
(`Int`), JS objects become structures, JS `Map`s over object entries become
association lists in insertion order, and every remote RPC (policy fetch,
zcap write, EDV reads and writes) is an oracle value supplied through an
environment structure, with `Except` modelling throw/return.
-/

namespace ServiceAgent

/-! ## Time constants (lib/refresh.js, lib/serviceAgents.js) -/

def ONE_MINUTE : Int := 1000 * 60

def FIVE_MINUTES : Int := 1000 * 60 * 5

def TEN_MINUTES : Int := FIVE_MINUTES * 2

def ONE_DAY : Int := 1000 * 60 * 60 * 24

def THIRTY_DAYS : Int := ONE_DAY * 30

def SIX_MONTHS : Int := THIRTY_DAYS * 6

def DEFAULT_MAX_REFRESH_AFTER : Int := SIX_MONTHS

def DEFAULT_POLICY_ERROR_REFRESH_AFTER : Int := ONE_DAY

def DEFAULT_MAX_TTL_BEFORE_REFRESH : Int := THIRTY_DAYS

def CLOCK_SKEW_DELTA : Int := FIVE_MINUTES

/-! ## JS error objects

Errors are inspected through `error.name`; an `HTTPError` may carry a
dereferencable body error in `error.data` (of which only the name is ever
inspected afterwards), per the catch blocks in lib/refresh.js. -/

structure JsErr where
  name : String
  data : Option String
  deriving DecidableEq

/-- Model of the snippet
`if(error.name === 'HTTPError' && error.data) { error = error.data; }`
appearing in `refreshZcaps` and `_refreshCapability` (lib/refresh.js). -/
def derefError (e : JsErr) : JsErr :=
  match e.data with
  | some bodyName => if e.name = "HTTPError" then { name := bodyName, data := none } else e
  | none => e

/-! ## Capabilities and refresh policy (lib/refresh.js data model) -/

structure Capability where
  id : String
  invocationTarget : Option String
  controller : String
  expires : Int
  deriving DecidableEq

structure RefreshConstraints where
  maxTtlBeforeRefresh : Option Int
  deriving DecidableEq

/-- The `refresh` property of a fetched policy:
`false`, an object with optional `constraints`, or absent. -/
inductive PolicyRefresh where
  | disabled
  | settings (constraints : Option RefreshConstraints)
  | absent
  deriving DecidableEq

structure RefreshPolicy where
  refresh : PolicyRefresh
  deriving DecidableEq

/-- Embedding of `_getRefreshTime` (lib/refresh.js): the max TTL before
refresh comes from `policy?.refresh?.constraints?.maxTtlBeforeRefresh` when
it is a number, else the default; the refresh time is the parsed expiry
plus the clock skew allowance minus that TTL. -/
def getRefreshTime (policy : RefreshPolicy) (capability : Capability) : Int :=
  let maxTtlBeforeRefresh :=
    match policy.refresh with
    | .settings (some c) =>
      match c.maxTtlBeforeRefresh with
      | some n => n
      | none => DEFAULT_MAX_TTL_BEFORE_REFRESH
    | _ => DEFAULT_MAX_TTL_BEFORE_REFRESH
  capability.expires + CLOCK_SKEW_DELTA - maxTtlBeforeRefresh

/-! ## Service object configuration -/

structure Config where
  id : String
  sequence : Int
  zcaps : List (String × Capability)
  deriving DecidableEq

/-- Association-list lookup with JS-object / `Map.get` semantics. -/
def zcapsLookup (zcaps : List (String × Capability)) (k : String) : Option Capability :=
  match zcaps with
  | [] => none
  | e :: rest => if e.1 = k then some e.2 else zcapsLookup rest k

/-- `Map.set` semantics: replace the value at an existing key in place,
append at the end otherwise. -/
def zcapsSet (zcaps : List (String × Capability)) (k : String) (v : Capability) :
    List (String × Capability) :=
  match zcaps with
  | [] => [(k, v)]
  | e :: rest => if e.1 = k then (e.1, v) :: rest else e :: zcapsSet rest k v

/-! ## The refresh engine (lib/refresh.js `refreshZcaps`) -/

/-- Outcome of one refresh-write RPC (`zcapClient.write`) followed by the
schema validation of the returned zcap: either the write throws, or it
returns a new zcap which validation accepts or rejects. -/
inductive WriteOutcome where
  | ok (newZcap : Capability) (validationError : Option JsErr)
  | err (e : JsErr)
  deriving DecidableEq

/-- Oracle environment for one `refreshZcaps` invocation: the result of the
policy-read RPC and, per capability map key, the outcome of the
refresh-write RPC plus validation. -/
structure RefreshEnv where
  policyFetch : Except JsErr RefreshPolicy
  writeOutcome : String → Capability → WriteOutcome

/-- Embedding of `_refreshCapability` (lib/refresh.js): on a write error or
a validation error the old capability is kept with `refreshed: false` and
the (HTTP-dereferenced) error recorded; on success the new zcap is returned
with `refreshed: true`. Returns (capability, refreshed, error). -/
def refreshCapability (outcome : WriteOutcome) (capability : Capability) :
    Capability × Bool × Option JsErr :=
  match outcome with
  | .ok newZcap none => (newZcap, true, none)
  | .ok _ (some verr) => (capability, false, some (derefError verr))
  | .err e => (capability, false, some (derefError e))

structure RefreshResult where
  capability : Capability
  refreshed : Bool
  error : Option JsErr
  referenceId : String
  deriving DecidableEq

structure RefreshInfo where
  enabled : Bool
  after : Int
  deriving DecidableEq

structure RefreshZcapsResult where
  config : Option Config
  refresh : RefreshInfo
  results : Option (List RefreshResult)
  error : Option JsErr
  deriving DecidableEq

/-- The per-task state shared across the queue workers of `refreshZcaps`:
the mutated zcap `Map`, the aggregate `after`, and the results. -/
structure RefreshLoopState where
  zcaps : List (String × Capability)
  after : Int
  results : List RefreshResult
  deriving DecidableEq

/-- One queue task of `refreshZcaps` (lib/refresh.js lines 110-129): skip a
capability whose refresh time has not arrived (returning it with
`refreshed: false` and touching neither the map nor `after`); otherwise
attempt the refresh, install a successful replacement in the map,
recompute its refresh time, and fold it into `after` clamped at five
minutes from now. -/
def refreshStep (policy : RefreshPolicy) (now : Int) (env : RefreshEnv)
    (st : RefreshLoopState) (entry : String × Capability) : RefreshLoopState :=
  let key := entry.1
  let capability := entry.2
  let refreshTime := getRefreshTime policy capability
  if now < refreshTime then
    { st with results := st.results ++ [⟨capability, false, none, key⟩] }
  else
    let r := refreshCapability (env.writeOutcome key capability) capability
    let result : RefreshResult := ⟨r.1, r.2.1, r.2.2, key⟩
    let zcaps2 := if r.2.1 then zcapsSet st.zcaps key r.1 else st.zcaps
    let refreshTime2 := if r.2.1 then getRefreshTime policy r.1 else refreshTime
    { zcaps := zcaps2
      after := max (now + FIVE_MINUTES) (min st.after refreshTime2)
      results := st.results ++ [result] }

/-- The opt-in check of `refreshZcaps`: the configuration has a delegated
`refresh` zcap whose `invocationTarget` is a string. -/
def hasRefreshZcap (config : Config) : Bool :=
  match zcapsLookup config.zcaps "refresh" with
  | some c => c.invocationTarget.isSome
  | none => false

/-- Embedding of `refreshZcaps` (lib/refresh.js). With no `refresh` zcap it
returns disabled with `after: 0`. A policy-fetch failure is classified by
the dereferenced error name: `NotFoundError` / `NotAllowedError` disable
refresh with `after: 0`, anything else keeps refresh enabled with the
one-day retry delay. On a fetched policy every capability entry is
processed by `refreshStep` with `after` seeded at now plus the six-month
default maximum. -/
def refreshZcaps (now : Int) (env : RefreshEnv) (config : Config) : RefreshZcapsResult :=
  if ¬ hasRefreshZcap config then
    { config := none, refresh := ⟨false, 0⟩, results := none, error := none }
  else
    match env.policyFetch with
    | .error e =>
      let e2 := derefError e
      if e2.name = "NotFoundError" ∨ e2.name = "NotAllowedError" then
        { config := none, refresh := ⟨false, 0⟩, results := none, error := some e2 }
      else
        { config := none, refresh := ⟨true, DEFAULT_POLICY_ERROR_REFRESH_AFTER⟩,
          results := none, error := some e2 }
    | .ok policy =>
      let init : RefreshLoopState :=
        ⟨config.zcaps, now + DEFAULT_MAX_REFRESH_AFTER, []⟩
      let final := config.zcaps.foldl (refreshStep policy now env) init
      { config := some { config with zcaps := final.zcaps }
        refresh := ⟨true, final.after⟩
        results := some final.results
        error := none }

/-- The result `refreshZcaps` produces for one capability map entry,
determined solely by that entry's own refresh-due time and write outcome:
a not-yet-due capability is returned unrefreshed with no error; a due one
gets the outcome of `refreshCapability`. -/
def resultFor (policy : RefreshPolicy) (now : Int) (env : RefreshEnv)
    (entry : String × Capability) : RefreshResult :=
  if now < getRefreshTime policy entry.2 then ⟨entry.2, false, none, entry.1⟩
  else
    let r := refreshCapability (env.writeOutcome entry.1 entry.2) entry.2
    ⟨r.1, r.2.1, r.2.2, entry.1⟩

/-- The capability left in the configuration map for one entry after a
refresh cycle: the replacement when that entry's refresh succeeded, the
original capability otherwise. -/
def finalCapabilityFor (policy : RefreshPolicy) (now : Int) (env : RefreshEnv)
    (entry : String × Capability) : Capability :=
  let r := resultFor policy now env entry
  if r.refreshed then r.capability else entry.2

/-- The refresh-due times that actually flow into the aggregate `after`:
one per capability that is due (`now >= refreshTime`), recomputed from the
replacement capability when the refresh succeeded. Not-yet-due
capabilities contribute nothing. -/
def dueRefreshTimes (policy : RefreshPolicy) (now : Int) (env : RefreshEnv) :
    List (String × Capability) → List Int
  | [] => []
  | e :: rest =>
    if now < getRefreshTime policy e.2 then dueRefreshTimes policy now env rest
    else
      (let r := refreshCapability (env.writeOutcome e.1 e.2) e.2
       if r.2.1 then getRefreshTime policy r.1 else getRefreshTime policy e.2) ::
        dueRefreshTimes policy now env rest

/-! ## Capability delegation (lib/helpers.js `delegate`)

`ZcapClient.delegate` is an external collaborator treated as a black box
that issues a capability bearing the requested controller and expiry; the
expiry requested by `delegate` is `min(capability.expires, maxExpires)`. -/

def delegate (capability : Capability) (controller : String) (maxExpires : Int) : Capability :=
  { capability with controller := controller, expires := min capability.expires maxExpires }

/-! ## Ephemeral agent provider (lib/serviceAgents.js) -/

structure EphemeralAgentRecord where
  capabilityAgentId : String
  zcaps : List (String × Capability)
  expires : Int
  deriving DecidableEq

/-- Embedding of the expiry computation of `_getUncachedEphemeralAgent`
(lib/serviceAgents.js): every zcap of the config is delegated to the fresh
agent with `maxExpires = now + TEN_MINUTES`; the earliest expiry is folded
starting from `maxExpires`; if the earliest expiry is before `checkNow`
(the `new Date()` taken after the delegations complete) the computation
throws `InvalidStateError`, else the record is returned with that expiry.
The rotation scheduling is modelled separately by `cacheRotationStep`. -/
def getUncachedEphemeralAgent (now : Int) (checkNow : Int) (agentId : String)
    (config : Config) : Except JsErr EphemeralAgentRecord :=
  let maxExpires := now + TEN_MINUTES
  let zcaps := config.zcaps.map (fun e => (e.1, delegate e.2 agentId maxExpires))
  let earliestExpires :=
    zcaps.foldl (fun acc e => if e.2.expires < acc then e.2.expires else acc) maxExpires
  if earliestExpires < checkNow then
    .error { name := "InvalidStateError", data := none }
  else
    .ok { capabilityAgentId := agentId, zcaps := zcaps, expires := earliestExpires }

/-- One attempt of `getEphemeralAgent` (lib/serviceAgents.js lines
146-170), given oracles for the record that the cached promise of attempt
`i` resolves to and the wall clock at the staleness check of attempt `i`:
a record whose `expires` has passed is discarded and the call retries
(re-entering the memoized getter); a live record is returned. `fuel`
bounds the recursion depth of the model. -/
def getEphemeralAgentLoop (producer : Nat → EphemeralAgentRecord) (checkTime : Nat → Int) :
    Nat → Nat → Option EphemeralAgentRecord
  | 0, _ => none
  | fuel + 1, attempt =>
    let record := producer attempt
    if record.expires < checkTime attempt then getEphemeralAgentLoop producer checkTime fuel (attempt + 1)
    else some record

/-- The guarded eviction of `getEphemeralAgent`: the expired record's cache
entry is deleted only when the slot still holds the very promise that was
awaited; returns the new slot and whether a deletion happened. -/
def evictIfUnchanged (slot : Option Nat) (promise : Nat) : Option Nat × Bool :=
  if slot = some promise then (none, true) else (slot, false)

/-! ## Background cache rotation (lib/serviceAgents.js lines 462-490 and
lib/documentStores.js lines 117-143)

Both sites schedule a timer that (1) reads the cache slot and gives up if
the key is gone, (2) gives up unless the slot still holds the promise
observed at the timer and that promise resolves to the very record that
scheduled the rotation, (3) produces a replacement, and (4) installs the
replacement only if the slot is still that original promise. Promises and
records are modelled by identity (`Nat` ids). -/

structure RotationEnv where
  slotAtTimer : Option Nat
  resolvesTo : Nat → Nat
  slotAtCheck : Option Nat
  slotAtInstall : Option Nat

structure RotationResult where
  started : Bool
  installed : Bool
  finalSlot : Option Nat
  deriving DecidableEq

/-- Model of one scheduled rotation for a record with id `recordId`; the
replacement promise gets the fresh id `newPromise`. -/
def cacheRotationStep (recordId : Nat) (newPromise : Nat) (env : RotationEnv) :
    RotationResult :=
  match env.slotAtTimer with
  | none => ⟨false, false, env.slotAtInstall⟩
  | some current =>
    if env.resolvesTo current = recordId ∧ env.slotAtCheck = some current then
      if env.slotAtInstall = some current then ⟨true, true, some newPromise⟩
      else ⟨true, false, env.slotAtInstall⟩
    else ⟨false, false, env.slotAtInstall⟩

/-! ## DocumentStore (lib/DocumentStore.js) -/

instance {ε α : Type} [DecidableEq ε] [DecidableEq α] : DecidableEq (Except ε α) := fun a b =>
  match a, b with
  | .ok x, .ok y =>
    if h : x = y then .isTrue (by rw [h]) else .isFalse (by intro hc; cases hc; exact h rfl)
  | .error x, .error y =>
    if h : x = y then .isTrue (by rw [h]) else .isFalse (by intro hc; cases hc; exact h rfl)
  | .ok _, .error _ => .isFalse (by intro hc; cases hc)
  | .error _, .ok _ => .isFalse (by intro hc; cases hc)

structure Content where
  id : String
  payload : Nat
  deriving DecidableEq

structure EdvDoc where
  id : String
  content : Content
  meta : Nat
  deriving DecidableEq

/-- Oracle for one iteration of the `upsert` while-loop: the uncached read
of the current document, the mutator application (used only when the read
found a document and a mutator was supplied), the id generated for a new
document, the conditional EDV write, and the confirming re-read performed
after a `DuplicateError` on creation. -/
structure UpsertIter where
  readResult : Except JsErr EdvDoc
  mutatorResult : Except JsErr EdvDoc
  newDocId : String
  updateResult : Except JsErr EdvDoc
  rereadResult : Except JsErr EdvDoc
  deriving DecidableEq

inductive UpsertOutcome where
  | ok (doc : EdvDoc)
  | err (e : JsErr)
  | fuelOut
  deriving DecidableEq

/-- The read-and-mutate phase of one `upsert` iteration (the first try
block, lib/DocumentStore.js lines 124-144): a found document is passed to
the mutator when one is supplied, else overwritten in place; any error
named `NotFoundError` escaping the block — whether from the read or from
the mutator — switches to creating a new document (`isNew`), and any other
error propagates. Returns the document to write and the `isNew` flag. -/
def upsertPrepare (mutatorPresent : Bool) (content : Content) (meta : Nat)
    (it : UpsertIter) : Except JsErr (EdvDoc × Bool) :=
  let handle : JsErr → Except JsErr (EdvDoc × Bool) := fun e =>
    if e.name = "NotFoundError" then .ok (⟨it.newDocId, content, meta⟩, true)
    else .error e
  match it.readResult with
  | .ok doc =>
    if mutatorPresent then
      match it.mutatorResult with
      | .ok d => .ok (d, false)
      | .error e => handle e
    else .ok ({ doc with content := content, meta := meta }, false)
  | .error e => handle e

/-- Embedding of the `upsert` while-loop (lib/DocumentStore.js lines
123-163) over the per-iteration oracles: a successful conditional write
breaks out; a `DuplicateError` while creating triggers the confirming
re-read and, when it succeeds, another iteration (an error of the re-read
propagates); an `InvalidStateError` triggers another iteration; any other
write error propagates. The iteration list is the fuel of the model. -/
def upsert (mutatorPresent : Bool) (content : Content) (meta : Nat) :
    List UpsertIter → UpsertOutcome
  | [] => .fuelOut
  | it :: rest =>
    match upsertPrepare mutatorPresent content meta it with
    | .error e => .err e
    | .ok (_, isNew) =>
      match it.updateResult with
      | .ok result => .ok result
      | .error e =>
        if e.name = "DuplicateError" ∧ isNew = true then
          match it.rereadResult with
          | .ok _ => upsert mutatorPresent content meta rest
          | .error e2 => .err e2
        else if e.name ≠ "InvalidStateError" then .err e
        else upsert mutatorPresent content meta rest

/-! ## DocumentStore.delete (lib/DocumentStore.js lines 186-262) -/

/-- JS truthiness of an optional string argument. -/
def truthy : Option String → Bool
  | none => false
  | some s => !(s = "")

structure DeleteResult where
  deleted : Bool
  doc : Option EdvDoc
  deriving DecidableEq

/-- Oracle for one `_delete` attempt: the `edvClient.get` by EDV doc id,
the `edvClient.find` by `content.id` (absence is an empty result list, not
a throw), and the `edvClient.delete`. -/
structure DeleteEnv where
  getByDocId : Except JsErr EdvDoc
  findByContentId : Except JsErr (Option EdvDoc)
  deleteOutcome : Except JsErr Unit
  deriving DecidableEq

/-- What one `_delete` attempt produces: a return value or a thrown error,
plus the content ids whose read-cache entries the `finally` block cleared. -/
structure DeleteAttempt where
  result : Except JsErr DeleteResult
  clearedCache : List String
  deriving DecidableEq

/-- The ids cleared by `finally { if(id) { this.cache.delete(id); } }`. -/
def clearFor (id : Option String) : List String :=
  match id with
  | some s => if s = "" then [] else [s]
  | none => []

/-- The tail of `_delete` once a document was found (with `id` bound to the
content id in scope): the backing delete either succeeds (`deleted: true`),
reports `NotFoundError` — a concurrent delete — which the outer catch turns
into `{deleted: false, doc: undefined}`, or throws; the cache entry for
`id` is cleared in every case. -/
def deleteFound (doc : EdvDoc) (id : Option String) (env : DeleteEnv) : DeleteAttempt :=
  match env.deleteOutcome with
  | .ok _ => { result := .ok ⟨true, some doc⟩, clearedCache := clearFor id }
  | .error e =>
    if e.name = "NotFoundError" then { result := .ok ⟨false, none⟩, clearedCache := clearFor id }
    else { result := .error e, clearedCache := clearFor id }

/-- Embedding of `_delete` (lib/DocumentStore.js lines 221-262). In the
`docId` branch a `NotFoundError` from the get returns `{deleted: false}`
with `id` still the original argument; on success `id` is rebound to the
found document's content id. Otherwise the document is looked up by
content id; absence returns `{deleted: false}`. The `finally` cache clear
applies to whatever `id` is in scope at exit. -/
def deleteAttempt (id : Option String) (docId : Option String) (env : DeleteEnv) :
    DeleteAttempt :=
  if truthy docId then
    match env.getByDocId with
    | .ok doc => deleteFound doc (some doc.content.id) env
    | .error e =>
      if e.name = "NotFoundError" then { result := .ok ⟨false, none⟩, clearedCache := clearFor id }
      else { result := .error e, clearedCache := clearFor id }
  else
    match env.findByContentId with
    | .ok (some doc) => deleteFound doc id env
    | .ok none => { result := .ok ⟨false, none⟩, clearedCache := clearFor id }
    | .error e =>
      if e.name = "NotFoundError" then { result := .ok ⟨false, none⟩, clearedCache := clearFor id }
      else { result := .error e, clearedCache := clearFor id }

inductive DeleteLoopResult where
  | done (r : DeleteResult)
  | thrown (e : JsErr)
  | fuelOut
  deriving DecidableEq

structure DeleteOutput where
  outcome : DeleteLoopResult
  clearedCache : List String
  deriving DecidableEq

/-- The retry loop of `delete` (lib/DocumentStore.js lines 195-204): only
an `InvalidStateError` escaping `_delete` triggers another attempt. -/
def deleteLoop (id : Option String) (docId : Option String) :
    List DeleteEnv → DeleteOutput
  | [] => ⟨.fuelOut, []⟩
  | env :: rest =>
    let a := deleteAttempt id docId env
    match a.result with
    | .ok r => ⟨.done r, a.clearedCache⟩
    | .error e =>
      if e.name = "InvalidStateError" then
        let next := deleteLoop id docId rest
        ⟨next.outcome, a.clearedCache ++ next.clearedCache⟩
      else ⟨.thrown e, a.clearedCache⟩

/-- Embedding of `DocumentStore.delete` (lib/DocumentStore.js lines
186-205): with neither identifier truthy it throws a `TypeError`, with
both truthy it throws an `Error`, in both cases before any storage access
or cache modification; otherwise it runs the retry loop. -/
def documentStoreDelete (id : Option String) (docId : Option String)
    (envs : List DeleteEnv) : DeleteOutput :=
  if ¬ (truthy id ∨ truthy docId) then ⟨.thrown ⟨"TypeError", none⟩, []⟩
  else if truthy id ∧ truthy docId then ⟨.thrown ⟨"Error", none⟩, []⟩
  else deleteLoop id docId envs

/-! ## Concrete fixtures used by the evaluation theorems -/

def capRefreshC1 : Capability :=
  { id := "urn:zcap:refresh-1", invocationTarget := some "https://authority.example/zcaps/refresh",
    controller := "did:key:service", expires := 86400000 }

def newZcapC1 : Capability :=
  { id := "urn:zcap:refresh-2", invocationTarget := some "https://authority.example/zcaps/refresh",
    controller := "did:key:service", expires := 15552000000 }

def configC1 : Config :=
  { id := "urn:config:c1", sequence := 0, zcaps := [("refresh", capRefreshC1)] }

/-- Environment in which the policy fetch succeeds and returns the policy
`{refresh: false}`, and the refresh-write RPC succeeds. -/
def envC1 : RefreshEnv :=
  { policyFetch := .ok ⟨.disabled⟩, writeOutcome := fun _ _ => .ok newZcapC1 none }

def policyC2 : RefreshPolicy := ⟨.settings (some ⟨none⟩)⟩

def capRefreshC2 : Capability :=
  { id := "urn:zcap:refresh-3", invocationTarget := some "https://authority.example/zcaps/refresh",
    controller := "did:key:service", expires := 3456000000 }

def configC2 : Config :=
  { id := "urn:config:c2", sequence := 0, zcaps := [("refresh", capRefreshC2)] }

def envC2 : RefreshEnv :=
  { policyFetch := .ok policyC2, writeOutcome := fun _ _ => .err ⟨"NotAllowedError", none⟩ }

def contentC6 : Content := { id := "doc1", payload := 0 }

def docExistingC6 : EdvDoc := { id := "edv-doc-1", content := { id := "doc1", payload := 1 }, meta := 7 }

def docCreatedC6 : EdvDoc := { id := "generated-1", content := contentC6, meta := 0 }

/-- Iteration oracle in which the read finds a document, the mutator throws
an error named `NotFoundError`, and the conditional write then succeeds. -/
def iterC6 : UpsertIter :=
  { readResult := .ok docExistingC6
    mutatorResult := .error ⟨"NotFoundError", none⟩
    newDocId := "generated-1"
    updateResult := .ok docCreatedC6
    rereadResult := .ok docExistingC6 }

/-- Environment whose policy fetch fails with an HTTP error wrapping a
`NotFoundError` body. -/
def envC7 : RefreshEnv :=
  { policyFetch := .error ⟨"HTTPError", some "NotFoundError"⟩
    writeOutcome := fun _ _ => .err ⟨"Error", none⟩ }

/-- Environment whose policy fetch fails with a transient error (neither
`NotFoundError` nor `NotAllowedError`). -/
def envC7transient : RefreshEnv :=
  { policyFetch := .error ⟨"NetworkError", none⟩
    writeOutcome := fun _ _ => .err ⟨"Error", none⟩ }

/-- Producer oracle: attempt `i` resolves to a record expiring at
`1000 * (i + 1)`. -/
def producerC5 : Nat → EphemeralAgentRecord :=
  fun i => { capabilityAgentId := "did:key:eph", zcaps := [], expires := 1000 * ((i : Int) + 1) }

def checkTimeC5 : Nat → Int := fun _ => 1500

/-- The record produced by `getUncachedEphemeralAgent 0 0` on `configC1`. -/
def recC4 : EphemeralAgentRecord :=
  { capabilityAgentId := "did:key:eph"
    zcaps := [("refresh", delegate capRefreshC1 "did:key:eph" 600000)]
    expires := 600000 }

/-- Iteration oracle whose conditional write fails with
`InvalidStateError`. -/
def iterC6b : UpsertIter :=
  { readResult := .ok docExistingC6
    mutatorResult := .ok docExistingC6
    newDocId := "generated-2"
    updateResult := .error ⟨"InvalidStateError", none⟩
    rereadResult := .ok docExistingC6 }

/-- Rotation observations: promise 3 is in the slot throughout and
resolves to record 5. -/
def envRotC8 : RotationEnv :=
  { slotAtTimer := some 3, resolvesTo := fun _ => 5, slotAtCheck := some 3, slotAtInstall := some 3 }

/-- Delete-attempt oracle: lookup by content id finds nothing. -/
def envC9 : DeleteEnv :=
  { getByDocId := .error ⟨"NotFoundError", none⟩, findByContentId := .ok none, deleteOutcome := .ok () }

/-! ## Theorems -/

/-- Claim C1 (code bug evaluation): on a configuration holding a `refresh`
zcap, with the policy fetch succeeding and returning exactly
`{refresh: false}`, `refreshZcaps` does NOT return
`{enabled: false, after: 0}` and does NOT skip capability processing: it
invokes the refresh-write RPC for the due capability, replaces it in the
returned configuration, and returns `enabled: true` — the behaviour the
spec (and the repository's own test `should not refresh zcaps with
"refresh=false" policy`) forbids. -/
theorem refreshZcaps_refresh_false_policy_processes_anyway :
    refreshZcaps 0 envC1 configC1 =
      { config := some { id := "urn:config:c1", sequence := 0, zcaps := [("refresh", newZcapC1)] }
        refresh := ⟨true, 12960300000⟩
        results := some [⟨newZcapC1, true, none, "refresh"⟩]
        error := none } ∧
    (refreshZcaps 0 envC1 configC1).refresh ≠ ⟨false, 0⟩ := by
  constructor
  · rfl
  · decide

/-- Claim C2 (counterexample): a configuration with a single capability
that is not yet due for refresh. The claim demands that the returned
`after` equal the minimum refresh-due time across all capabilities
(including skipped ones) clamped to five minutes from now, i.e.
`864300000`; the code skips not-yet-due capabilities without folding their
due time into `after` and returns the six-month default `15552000000`
instead, while indeed leaving the capability set unchanged. -/
theorem refreshZcaps_after_skipped_counterexample :
    (refreshZcaps 0 envC2 configC2).config = some configC2 ∧
    getRefreshTime policyC2 capRefreshC2 = 864300000 ∧
    (refreshZcaps 0 envC2 configC2).refresh.after = 0 + SIX_MONTHS ∧
    (refreshZcaps 0 envC2 configC2).refresh.after ≠
      max (0 + FIVE_MINUTES) (getRefreshTime policyC2 capRefreshC2) := by
  refine ⟨rfl, by decide, rfl, by decide⟩

/-- Claim C6 (counterexample): an error deliberately raised by the mutator
does not always propagate to the caller — when its `name` is
`NotFoundError` the loop swallows it, switches to creating a brand-new
document, and the upsert succeeds instead of rethrowing the mutator's
error. -/
theorem upsert_mutator_notfound_swallowed_counterexample :
    upsert true contentC6 0 [iterC6] = .ok docCreatedC6 ∧
    upsert true contentC6 0 [iterC6] ≠ .err ⟨"NotFoundError", none⟩ := by
  refine ⟨rfl, by decide⟩

/-- Claim C7 (counterexample): on a transient policy-fetch failure at a
nonzero `now`, the returned `after` is the bare one-day constant
86400000, not `now + ONE_DAY` — under the absolute-timestamp convention
of the success path (which computes `after` as `now + ...`) the next
refresh is therefore not scheduled one day later, refuting the claim's
conclusion. -/
theorem refreshZcaps_transient_after_counterexample :
    (refreshZcaps 1000000000000 envC7transient configC1).refresh =
      ⟨true, DEFAULT_POLICY_ERROR_REFRESH_AFTER⟩ ∧
    DEFAULT_POLICY_ERROR_REFRESH_AFTER = 86400000 ∧
    (refreshZcaps 1000000000000 envC7transient configC1).refresh.after ≠
      1000000000000 + ONE_DAY := by
  refine ⟨rfl, by decide, by decide⟩

/-- Claim C7 (amended): when the policy fetch fails, `refreshZcaps`
processes no capabilities (`config` and `results` are absent) and
classifies the failure in exactly two ways by the HTTP-dereferenced error
name: `NotFoundError` or `NotAllowedError` yields
`{enabled: false, after: 0}` with the error surfaced, and every other
failure yields `{enabled: true}` with the error surfaced and `after` set
to the fixed constant `DEFAULT_POLICY_ERROR_REFRESH_AFTER` — one day in
milliseconds as a bare duration, not `now` plus one day. -/
theorem refreshZcaps_policy_fetch_failure_classification
    (now : Int) (env : RefreshEnv) (config : Config) (e : JsErr)
    (hz : hasRefreshZcap config = true)
    (hf : env.policyFetch = .error e) :
    ((derefError e).name = "NotFoundError" ∨ (derefError e).name = "NotAllowedError" →
      refreshZcaps now env config =
        { config := none, refresh := ⟨false, 0⟩, results := none,
          error := some (derefError e) }) ∧
    (¬ ((derefError e).name = "NotFoundError" ∨ (derefError e).name = "NotAllowedError") →
      refreshZcaps now env config =
        { config := none, refresh := ⟨true, ONE_DAY⟩, results := none,
          error := some (derefError e) }) := by
  unfold refreshZcaps
  rw [hf]
  simp only [hz, not_true_eq_false, if_false, Bool.not_eq_true]
  constructor
  · intro h
    rw [if_pos h]
  · intro h
    rw [if_neg h]
    rfl

/-- Claim C7 witness: a concrete configuration with a refresh zcap whose
policy fetch fails with an HTTP error wrapping a `NotFoundError` body. -/
theorem refreshZcaps_policy_fetch_failure_classification_witness :
    hasRefreshZcap configC1 = true ∧
    refreshZcaps 0 envC7 configC1 =
      { config := none, refresh := ⟨false, 0⟩, results := none,
        error := some ⟨"NotFoundError", none⟩ } := by
  refine ⟨by decide, ?_⟩
  exact (refreshZcaps_policy_fetch_failure_classification 0 envC7 configC1
    ⟨"HTTPError", some "NotFoundError"⟩ (by decide) rfl).1 (Or.inl rfl)

/-- Claim C8: a scheduled background rotation installs its replacement
into the cache slot exactly when the key was still present when the timer
fired, the slot still held the promise resolving to the record that
scheduled the rotation at the pre-start check, and the slot still held
that same promise when the replacement was ready; if the initial checks
fail no rotation is started, and whenever the replacement is not
installed the slot is left untouched (the replacement is discarded). -/
theorem cacheRotationStep_install_guard (recordId newPromise : Nat) (env : RotationEnv) :
    ((cacheRotationStep recordId newPromise env).installed = true ↔
      ∃ current, env.slotAtTimer = some current ∧ env.resolvesTo current = recordId ∧
        env.slotAtCheck = some current ∧ env.slotAtInstall = some current) ∧
    (env.slotAtTimer = none → (cacheRotationStep recordId newPromise env).started = false) ∧
    (∀ current, env.slotAtTimer = some current →
      ¬ (env.resolvesTo current = recordId ∧ env.slotAtCheck = some current) →
      (cacheRotationStep recordId newPromise env).started = false) ∧
    ((cacheRotationStep recordId newPromise env).installed = false →
      (cacheRotationStep recordId newPromise env).finalSlot = env.slotAtInstall) ∧
    ((cacheRotationStep recordId newPromise env).installed = true →
      (cacheRotationStep recordId newPromise env).finalSlot = some newPromise) := by
  obtain ⟨slotT, res, slotC, slotI⟩ := env
  refine ⟨?_, ?_, ?_, ?_, ?_⟩ <;> rcases slotT with _ | current
  all_goals first
    | (simp [cacheRotationStep]; done)
    | (by_cases hcond : res current = recordId ∧ slotC = some current <;>
       by_cases hinst : slotI = some current <;>
       simp [cacheRotationStep, hcond, hinst])

/-- Claim C8 witness: with the slot holding promise 3 (resolving to record
5) at the timer, the check, and the install, the replacement promise 9 is
installed. -/
theorem cacheRotationStep_install_guard_witness :
    (cacheRotationStep 5 9 envRotC8).installed = true ∧
    (cacheRotationStep 5 9 envRotC8).finalSlot = some 9 := by
  have h := cacheRotationStep_install_guard 5 9 envRotC8
  have hi : (cacheRotationStep 5 9 envRotC8).installed = true :=
    h.1.mpr ⟨3, rfl, rfl, rfl, rfl⟩
  exact ⟨hi, h.2.2.2.2 hi⟩

/-- Claim C10: `DocumentStore.delete` requires exactly one identifier:
with neither `id` nor `docId` supplied (truthy) it throws a `TypeError`,
with both supplied it throws an `Error`, and in both cases it does so for
every storage environment, with no cache entry cleared — i.e. before any
storage access or cache modification. -/
theorem documentStoreDelete_identifier_validation
    (id docId : Option String) (envs : List DeleteEnv) :
    (¬ (truthy id = true ∨ truthy docId = true) →
      documentStoreDelete id docId envs = ⟨.thrown ⟨"TypeError", none⟩, []⟩) ∧
    (truthy id = true ∧ truthy docId = true →
      documentStoreDelete id docId envs = ⟨.thrown ⟨"Error", none⟩, []⟩) := by
  unfold documentStoreDelete
  constructor
  · intro h
    rw [if_pos]
    simpa using h
  · intro h
    rw [if_neg, if_pos]
    · simpa using h
    · simp [h.1]

/-- Claim C10 witness: both identifiers yields a thrown `Error`, neither
yields a thrown `TypeError`, in both cases with an empty environment list
and no cache clearing. -/
theorem documentStoreDelete_identifier_validation_witness :
    documentStoreDelete (some "a") (some "b") [] = ⟨.thrown ⟨"Error", none⟩, []⟩ ∧
    documentStoreDelete none none [] = ⟨.thrown ⟨"TypeError", none⟩, []⟩ := by
  constructor
  · exact (documentStoreDelete_identifier_validation (some "a") (some "b") []).2
      ⟨by decide, by decide⟩
  · exact (documentStoreDelete_identifier_validation none none []).1 (by decide)

/-- Claim C5: `getEphemeralAgent` never returns a record whose `expires`
has passed: whenever the retry loop returns a record, that record is the
one produced at some attempt and its `expires` is at or after the wall
clock of that attempt's staleness check; a stale record forces a retry
that re-enters the producer; and the stale cache entry is evicted exactly
when the slot still holds the awaited promise, being left untouched
otherwise. -/
theorem getEphemeralAgent_returns_live_record
    (producer : Nat → EphemeralAgentRecord) (checkTime : Nat → Int)
    (fuel attempt : Nat) (record : EphemeralAgentRecord)
    (h : getEphemeralAgentLoop producer checkTime fuel attempt = some record) :
    (∃ j, attempt ≤ j ∧ record = producer j ∧ ¬ record.expires < checkTime j) ∧
    (∀ f a, (producer a).expires < checkTime a →
      getEphemeralAgentLoop producer checkTime (f + 1) a =
        getEphemeralAgentLoop producer checkTime f (a + 1)) ∧
    (∀ slot promise, slot ≠ some promise → evictIfUnchanged slot promise = (slot, false)) ∧
    (∀ promise, evictIfUnchanged (some promise) promise = (none, true)) := by
  refine ⟨?_, ?_, ?_, ?_⟩
  · induction fuel generalizing attempt with
    | zero => simp [getEphemeralAgentLoop] at h
    | succ f ih =>
      rw [getEphemeralAgentLoop] at h
      by_cases hc : (producer attempt).expires < checkTime attempt
      · rw [if_pos hc] at h
        obtain ⟨j, hj, hrec, hlive⟩ := ih (attempt + 1) h
        exact ⟨j, by omega, hrec, hlive⟩
      · rw [if_neg hc] at h
        cases h
        exact ⟨attempt, le_refl _, rfl, hc⟩
  · intro f a hstale
    rw [getEphemeralAgentLoop, if_pos hstale]
  · intro slot promise hne
    unfold evictIfUnchanged
    rw [if_neg hne]
  · intro promise
    unfold evictIfUnchanged
    rw [if_pos rfl]

/-- Claim C5 witness: the first produced record (expiring at 1000) is
stale at the check time 1500, so the loop retries and returns the second
record (expiring at 2000), which is live. -/
theorem getEphemeralAgent_returns_live_record_witness :
    getEphemeralAgentLoop producerC5 checkTimeC5 3 0 =
      some { capabilityAgentId := "did:key:eph", zcaps := [], expires := 2000 } ∧
    ∃ j, 0 ≤ j ∧
      ({ capabilityAgentId := "did:key:eph", zcaps := [], expires := 2000 }
        : EphemeralAgentRecord) = producerC5 j ∧
      ¬ (({ capabilityAgentId := "did:key:eph", zcaps := [], expires := 2000 }
        : EphemeralAgentRecord).expires) < checkTimeC5 j := by
  refine ⟨by decide, ?_⟩
  exact (getEphemeralAgent_returns_live_record producerC5 checkTimeC5 3 0 _ (by decide)).1

/-! Helper lemmas about the running-minimum fold used by
`getUncachedEphemeralAgent` to compute the earliest expiry. -/

lemma expiresFold_le_seed (l : List (String × Capability)) (a : Int) :
    l.foldl (fun acc e => if e.2.expires < acc then e.2.expires else acc) a ≤ a := by
  induction l generalizing a with
  | nil => simp
  | cons e rest ih =>
    simp only [List.foldl_cons]
    by_cases h : e.2.expires < a
    · rw [if_pos h]
      exact le_trans (ih _) (le_of_lt h)
    · rw [if_neg h]
      exact ih a

lemma expiresFold_le_mem (l : List (String × Capability)) (a : Int)
    (e : String × Capability) (he : e ∈ l) :
    l.foldl (fun acc x => if x.2.expires < acc then x.2.expires else acc) a ≤ e.2.expires := by
  induction l generalizing a with
  | nil => cases he
  | cons e0 rest ih =>
    simp only [List.foldl_cons]
    rcases List.mem_cons.mp he with rfl | hmem
    · refine le_trans (expiresFold_le_seed rest _) ?_
      by_cases h : e.2.expires < a
      · rw [if_pos h]
      · rw [if_neg h]
        omega
    · exact ih _ hmem

lemma expiresFold_mem_or_seed (l : List (String × Capability)) (a : Int) :
    l.foldl (fun acc x => if x.2.expires < acc then x.2.expires else acc) a = a ∨
      ∃ e ∈ l, l.foldl (fun acc x => if x.2.expires < acc then x.2.expires else acc) a
        = e.2.expires := by
  induction l generalizing a with
  | nil => exact Or.inl rfl
  | cons e0 rest ih =>
    simp only [List.foldl_cons]
    rcases ih (if e0.2.expires < a then e0.2.expires else a) with h | ⟨e, he, hda⟩
    · by_cases h0 : e0.2.expires < a
      · exact Or.inr ⟨e0, List.mem_cons_self _ _, by rw [if_pos h0] at h ⊢; exact h⟩
      · rw [if_neg h0] at h ⊢
        exact Or.inl h
    · exact Or.inr ⟨e, List.mem_cons_of_mem _ he, hda⟩

/-- Claim C4: over a non-empty capability map, a successfully computed
ephemeral agent record delegates every capability with expiry
`min(source.expires, now + TEN_MINUTES)`, and its `expires` equals the
minimum of the delegated expiries (it is one of them and a lower bound of
all of them) and has not passed the check time; and whenever any delegated
expiry is already before the check time, no record is returned — the
computation fails with `InvalidStateError`. -/
theorem ephemeralAgent_expiry_dominance
    (now checkNow : Int) (agentId : String) (config : Config)
    (hne : config.zcaps ≠ []) :
    (∀ record, getUncachedEphemeralAgent now checkNow agentId config = .ok record →
      record.zcaps =
        config.zcaps.map (fun e => (e.1, delegate e.2 agentId (now + TEN_MINUTES))) ∧
      record.expires ∈ config.zcaps.map (fun e => min e.2.expires (now + TEN_MINUTES)) ∧
      (∀ x ∈ config.zcaps.map (fun e => min e.2.expires (now + TEN_MINUTES)),
        record.expires ≤ x) ∧
      ¬ record.expires < checkNow) ∧
    ((∃ x ∈ config.zcaps.map (fun e => min e.2.expires (now + TEN_MINUTES)), x < checkNow) →
      getUncachedEphemeralAgent now checkNow agentId config =
        .error ⟨"InvalidStateError", none⟩) := by
  have hmapexp :
      (config.zcaps.map (fun e => (e.1, delegate e.2 agentId (now + TEN_MINUTES)))).map
          (fun e => e.2.expires)
        = config.zcaps.map (fun e => min e.2.expires (now + TEN_MINUTES)) := by
    rw [List.map_map]
    rfl
  set L := config.zcaps.map (fun e => (e.1, delegate e.2 agentId (now + TEN_MINUTES))) with hL
  set m := L.foldl (fun acc e => if e.2.expires < acc then e.2.expires else acc)
    (now + TEN_MINUTES) with hm
  have hunfold : getUncachedEphemeralAgent now checkNow agentId config =
      (if m < checkNow then .error ⟨"InvalidStateError", none⟩
       else .ok ⟨agentId, L, m⟩) := rfl
  have hlte : ∀ e ∈ L, e.2.expires ≤ now + TEN_MINUTES := by
    intro e he
    rw [hL] at he
    obtain ⟨o, -, rfl⟩ := List.mem_map.mp he
    exact min_le_right _ _
  have hmem : m ∈ L.map (fun e => e.2.expires) := by
    rcases expiresFold_mem_or_seed L (now + TEN_MINUTES) with hseed | ⟨e, he, heq⟩
    · obtain ⟨e0, he0⟩ : ∃ e0, e0 ∈ L := by
        rcases hLcase : L with _ | ⟨e0, rest⟩
        · rw [hLcase] at hL
          exact absurd (List.map_eq_nil_iff.mp hL.symm) hne
        · exact ⟨e0, List.mem_cons_self _ _⟩
      have h1 := expiresFold_le_mem L (now + TEN_MINUTES) e0 he0
      have h2 := hlte e0 he0
      rw [← hm] at h1 hseed
      have hme : m = e0.2.expires := by omega
      rw [hme]
      exact List.mem_map_of_mem _ he0
    · rw [← hm] at heq
      rw [heq]
      exact List.mem_map_of_mem _ he
  have hlb : ∀ x ∈ L.map (fun e => e.2.expires), m ≤ x := by
    intro x hx
    obtain ⟨e, he, rfl⟩ := List.mem_map.mp hx
    rw [hm]
    exact expiresFold_le_mem L (now + TEN_MINUTES) e he
  constructor
  · intro record hok
    rw [hunfold] at hok
    by_cases hc : m < checkNow
    · rw [if_pos hc] at hok
      cases hok
    · rw [if_neg hc] at hok
      cases hok
      exact ⟨rfl, hmapexp ▸ hmem, fun x hx => hlb x (hmapexp.symm ▸ hx), hc⟩
  · rintro ⟨x, hx, hlt⟩
    have hmlt : m < checkNow :=
      lt_of_le_of_lt (hlb x (hmapexp.symm ▸ hx)) hlt
    rw [hunfold, if_pos hmlt]

/-- Claim C4 witness: `configC1` has one capability; with `now = 0` the
delegated expiry is capped at ten minutes, the record's `expires` is
600000, and it has not passed the check time 0. -/
theorem ephemeralAgent_expiry_dominance_witness :
    configC1.zcaps ≠ [] ∧
    getUncachedEphemeralAgent 0 0 "did:key:eph" configC1 = .ok recC4 ∧
    ¬ recC4.expires < 0 := by
  refine ⟨by decide, rfl, ?_⟩
  exact ((ephemeralAgent_expiry_dominance 0 0 "did:key:eph" configC1
    (by decide)).1 recC4 rfl).2.2.2

/-! Helper lemmas about the clamped running minimum that `refreshZcaps`
maintains in `after`. -/

lemma foldl_min_merge (ts : List Int) : ∀ a b : Int,
    ts.foldl min (min a b) = min a (ts.foldl min b) := by
  induction ts with
  | nil => intro a b; rfl
  | cons t ts ih =>
    intro a b
    simp only [List.foldl_cons]
    rw [min_assoc, ih a (min b t)]

lemma max_foldl_min_clamp (F : Int) (ts : List Int) : ∀ y : Int,
    max F (ts.foldl min (max F y)) = max F (ts.foldl min y) := by
  induction ts with
  | nil =>
    intro y
    simp only [List.foldl_nil]
    omega
  | cons t ts ih =>
    intro y
    simp only [List.foldl_cons]
    rw [foldl_min_merge ts (max F y) t, foldl_min_merge ts y t]
    have h := ih y
    omega

lemma clampFoldl (F : Int) (ts : List Int) : ∀ a : Int, F ≤ a →
    ts.foldl (fun x t => max F (min x t)) a = max F (ts.foldl min a) := by
  induction ts with
  | nil =>
    intro a ha
    simp only [List.foldl_nil]
    omega
  | cons t ts ih =>
    intro a ha
    simp only [List.foldl_cons]
    rw [ih (max F (min a t)) (le_max_left _ _)]
    exact max_foldl_min_clamp F ts (min a t)

/-- The `after` produced by the refresh loop is the clamped fold of the due
refresh times over the initial `after`. -/
lemma refreshLoop_after (policy : RefreshPolicy) (now : Int) (env : RefreshEnv) :
    ∀ (entries : List (String × Capability)) (st : RefreshLoopState),
      (entries.foldl (refreshStep policy now env) st).after =
        (dueRefreshTimes policy now env entries).foldl
          (fun a t => max (now + FIVE_MINUTES) (min a t)) st.after := by
  intro entries
  induction entries with
  | nil => intro st; rfl
  | cons e rest ih =>
    intro st
    simp only [List.foldl_cons, dueRefreshTimes, refreshStep]
    by_cases h : now < getRefreshTime policy e.2
    · simp only [if_pos h]
      rw [ih]
    · simp only [if_neg h]
      rw [ih]
      rfl

/-- When no capability is due, the refresh loop leaves the zcap map of its
state untouched. -/
lemma refreshLoop_zcaps_no_due (policy : RefreshPolicy) (now : Int) (env : RefreshEnv) :
    ∀ (entries : List (String × Capability)) (st : RefreshLoopState),
      dueRefreshTimes policy now env entries = [] →
      (entries.foldl (refreshStep policy now env) st).zcaps = st.zcaps := by
  intro entries
  induction entries with
  | nil => intro st _; rfl
  | cons e rest ih =>
    intro st hd
    simp only [dueRefreshTimes] at hd
    by_cases h : now < getRefreshTime policy e.2
    · rw [if_pos h] at hd
      simp only [List.foldl_cons, refreshStep, if_pos h]
      exact ih _ hd
    · rw [if_neg h] at hd
      exact absurd hd (List.cons_ne_nil _ _)

/-- On a successfully fetched policy, `refreshZcaps` is the loop over the
configuration's capability entries. -/
lemma refreshZcaps_ok_unfold (now : Int) (env : RefreshEnv) (config : Config)
    (policy : RefreshPolicy)
    (hz : hasRefreshZcap config = true)
    (hp : env.policyFetch = .ok policy) :
    refreshZcaps now env config =
      { config := some { config with zcaps := (config.zcaps.foldl (refreshStep policy now env)
            ⟨config.zcaps, now + DEFAULT_MAX_REFRESH_AFTER, []⟩).zcaps }
        refresh := ⟨true, (config.zcaps.foldl (refreshStep policy now env)
            ⟨config.zcaps, now + DEFAULT_MAX_REFRESH_AFTER, []⟩).after⟩
        results := some (config.zcaps.foldl (refreshStep policy now env)
            ⟨config.zcaps, now + DEFAULT_MAX_REFRESH_AFTER, []⟩).results
        error := none } := by
  unfold refreshZcaps
  rw [hp, if_neg (by simp [hz])]

/-- Claim C2 (amended): for every refresh invocation that reaches
capability processing, the returned `after` is the clamp to at least five
minutes from now of the minimum over `now + DEFAULT_MAX_REFRESH_AFTER`
(six months) and the refresh-due times of only those capabilities that
were due and processed — the due time of the replacement capability when
the refresh succeeded, of the original otherwise. Capabilities skipped as
not yet due contribute nothing; in particular when no capability is due
the capability set is returned unchanged and `after` is `now` plus the
six-month default. -/
theorem refreshZcaps_after_characterization
    (now : Int) (env : RefreshEnv) (config : Config) (policy : RefreshPolicy)
    (hz : hasRefreshZcap config = true)
    (hp : env.policyFetch = .ok policy) :
    (refreshZcaps now env config).refresh.after =
      max (now + FIVE_MINUTES)
        ((dueRefreshTimes policy now env config.zcaps).foldl min
          (now + DEFAULT_MAX_REFRESH_AFTER)) ∧
    (dueRefreshTimes policy now env config.zcaps = [] →
      (refreshZcaps now env config).refresh.after = now + DEFAULT_MAX_REFRESH_AFTER ∧
      (refreshZcaps now env config).config = some config) := by
  rw [refreshZcaps_ok_unfold now env config policy hz hp]
  have hFle : now + FIVE_MINUTES ≤ now + DEFAULT_MAX_REFRESH_AFTER := by
    have : FIVE_MINUTES ≤ DEFAULT_MAX_REFRESH_AFTER := by decide
    omega
  constructor
  · show (config.zcaps.foldl (refreshStep policy now env)
        ⟨config.zcaps, now + DEFAULT_MAX_REFRESH_AFTER, []⟩).after = _
    rw [refreshLoop_after]
    exact clampFoldl (now + FIVE_MINUTES) _ _ hFle
  · intro hd
    constructor
    · show (config.zcaps.foldl (refreshStep policy now env)
          ⟨config.zcaps, now + DEFAULT_MAX_REFRESH_AFTER, []⟩).after = _
      rw [refreshLoop_after, hd]
      rfl
    · show some { config with zcaps := (config.zcaps.foldl (refreshStep policy now env)
          ⟨config.zcaps, now + DEFAULT_MAX_REFRESH_AFTER, []⟩).zcaps } = some config
      rw [refreshLoop_zcaps_no_due policy now env config.zcaps _ hd]

/-- Claim C2 witness: the single capability of `configC1` is due under the
disabled-constraints policy, its refresh succeeds, and the returned
`after` equals the clamped minimum over the due refresh times. -/
theorem refreshZcaps_after_characterization_witness :
    hasRefreshZcap configC1 = true ∧
    (refreshZcaps 0 envC1 configC1).refresh.after =
      max (0 + FIVE_MINUTES)
        ((dueRefreshTimes ⟨.disabled⟩ 0 envC1 configC1.zcaps).foldl min
          (0 + DEFAULT_MAX_REFRESH_AFTER)) := by
  refine ⟨by decide, ?_⟩
  exact (refreshZcaps_after_characterization 0 envC1 configC1 ⟨.disabled⟩ (by decide) rfl).1

/-! Helper lemmas for the per-capability isolation of the refresh loop. -/

lemma zcapsLookup_set_eq (l : List (String × Capability)) (k : String) (v : Capability) :
    zcapsLookup (zcapsSet l k v) k = some v := by
  induction l with
  | nil => simp [zcapsSet, zcapsLookup]
  | cons e rest ih =>
    simp only [zcapsSet]
    by_cases h : e.1 = k
    · rw [if_pos h]
      simp [zcapsLookup, h]
    · rw [if_neg h]
      simp only [zcapsLookup, if_neg h]
      exact ih

lemma zcapsLookup_set_ne (l : List (String × Capability)) (k k2 : String) (v : Capability)
    (h : k2 ≠ k) : zcapsLookup (zcapsSet l k2 v) k = zcapsLookup l k := by
  induction l with
  | nil => simp [zcapsSet, zcapsLookup, h]
  | cons e rest ih =>
    simp only [zcapsSet]
    by_cases h2 : e.1 = k2
    · rw [if_pos h2]
      simp only [zcapsLookup]
      rw [if_neg (h2 ▸ h), if_neg (h2 ▸ h)]
    · rw [if_neg h2]
      simp only [zcapsLookup]
      by_cases h3 : e.1 = k
      · rw [if_pos h3, if_pos h3]
      · rw [if_neg h3, if_neg h3]
        exact ih

lemma zcapsLookup_of_mem_nodup (l : List (String × Capability))
    (hnd : (l.map Prod.fst).Nodup) (k : String) (c : Capability)
    (hmem : (k, c) ∈ l) : zcapsLookup l k = some c := by
  induction l with
  | nil => cases hmem
  | cons e rest ih =>
    rw [List.map_cons, List.nodup_cons] at hnd
    rcases List.mem_cons.mp hmem with heq | hmem2
    · cases heq
      simp [zcapsLookup]
    · have hk : k ∈ rest.map Prod.fst := by
        have := List.mem_map_of_mem Prod.fst hmem2
        simpa using this
      have hne : e.1 ≠ k := fun h => hnd.1 (h ▸ hk)
      simp only [zcapsLookup, if_neg hne]
      exact ih hnd.2 hmem2

/-- The refresh loop never touches the map entry of a key that is not
among the processed entries. -/
lemma refreshLoop_zcaps_not_mem (policy : RefreshPolicy) (now : Int) (env : RefreshEnv) :
    ∀ (entries : List (String × Capability)) (st : RefreshLoopState) (k : String),
      k ∉ entries.map Prod.fst →
      zcapsLookup (entries.foldl (refreshStep policy now env) st).zcaps k =
        zcapsLookup st.zcaps k := by
  intro entries
  induction entries with
  | nil => intro st k _; rfl
  | cons e rest ih =>
    intro st k hk
    rw [List.map_cons] at hk
    have hke : k ≠ e.1 := fun h => hk (h ▸ List.mem_cons_self _ _)
    have hkr : k ∉ rest.map Prod.fst := fun h => hk (List.mem_cons_of_mem _ h)
    simp only [List.foldl_cons]
    rw [ih _ k hkr]
    simp only [refreshStep]
    by_cases h : now < getRefreshTime policy e.2
    · rw [if_pos h]
    · rw [if_neg h]
      by_cases hr : (refreshCapability (env.writeOutcome e.1 e.2) e.2).2.1
      · simp only [if_pos hr]
        exact zcapsLookup_set_ne st.zcaps k e.1 _ (Ne.symm hke)
      · simp only [if_neg hr]

/-- After the refresh loop, the map holds each entry's final capability:
the replacement when that entry refreshed, the original otherwise. -/
lemma refreshLoop_zcaps_lookup (policy : RefreshPolicy) (now : Int) (env : RefreshEnv) :
    ∀ (entries : List (String × Capability)) (st : RefreshLoopState),
      (entries.map Prod.fst).Nodup →
      ∀ k c, (k, c) ∈ entries → zcapsLookup st.zcaps k = some c →
        zcapsLookup (entries.foldl (refreshStep policy now env) st).zcaps k =
          some (finalCapabilityFor policy now env (k, c)) := by
  intro entries
  induction entries with
  | nil => intro st _ k c hmem _; cases hmem
  | cons e rest ih =>
    intro st hnd k c hmem hst
    rw [List.map_cons, List.nodup_cons] at hnd
    simp only [List.foldl_cons]
    rcases List.mem_cons.mp hmem with heq | hmem2
    · cases heq
      have hkr : k ∉ rest.map Prod.fst := by simpa using hnd.1
      rw [refreshLoop_zcaps_not_mem policy now env rest _ k hkr]
      simp only [refreshStep, finalCapabilityFor, resultFor]
      by_cases h : now < getRefreshTime policy c
      · simp only [if_pos h]
        exact hst
      · simp only [if_neg h]
        by_cases hr : (refreshCapability (env.writeOutcome k c) c).2.1
        · simp only [if_pos hr, hr]
          exact zcapsLookup_set_eq st.zcaps k _
        · simp only [if_neg hr, hr]
          simp only [Bool.false_eq_true, if_false]
          exact hst
    · have hk : k ∈ rest.map Prod.fst := by
        have := List.mem_map_of_mem Prod.fst hmem2
        simpa using this
      have hke : e.1 ≠ k := fun h => hnd.1 (h ▸ hk)
      refine ih _ hnd.2 k c hmem2 ?_
      simp only [refreshStep]
      by_cases h : now < getRefreshTime policy e.2
      · rw [if_pos h]
        exact hst
      · rw [if_neg h]
        by_cases hr : (refreshCapability (env.writeOutcome e.1 e.2) e.2).2.1
        · simp only [if_pos hr]
          rw [zcapsLookup_set_ne st.zcaps k e.1 _ hke]
          exact hst
        · simp only [if_neg hr]
          exact hst

/-- Each loop step appends exactly the per-entry result of `resultFor`. -/
lemma refreshLoop_results (policy : RefreshPolicy) (now : Int) (env : RefreshEnv) :
    ∀ (entries : List (String × Capability)) (st : RefreshLoopState),
      (entries.foldl (refreshStep policy now env) st).results =
        st.results ++ entries.map (resultFor policy now env) := by
  intro entries
  induction entries with
  | nil => intro st; simp
  | cons e rest ih =>
    intro st
    simp only [List.foldl_cons, List.map_cons]
    rw [ih]
    simp only [refreshStep, resultFor]
    by_cases h : now < getRefreshTime policy e.2
    · simp only [if_pos h]
      simp
    · simp only [if_neg h]
      simp

/-- Claim C3: in one refresh cycle every capability is processed
independently. The results array is exactly one `resultFor` entry per
capability in order; the returned configuration's map binds each key to
its own final capability — the replacement only on success, the original
otherwise — and `resultFor` records, for a failed write or failed
validation, `refreshed = false` with the dereferenced failure, keeping the
original capability, while only a validated success replaces it. -/
theorem refreshZcaps_partial_failure_isolation
    (now : Int) (env : RefreshEnv) (config : Config) (policy : RefreshPolicy)
    (hz : hasRefreshZcap config = true)
    (hp : env.policyFetch = .ok policy)
    (hnd : (config.zcaps.map Prod.fst).Nodup) :
    (refreshZcaps now env config).results =
      some (config.zcaps.map (resultFor policy now env)) ∧
    (∃ cfg2, (refreshZcaps now env config).config = some cfg2 ∧
      ∀ k c, (k, c) ∈ config.zcaps →
        zcapsLookup cfg2.zcaps k = some (finalCapabilityFor policy now env (k, c))) ∧
    (∀ k c e, ¬ now < getRefreshTime policy c → env.writeOutcome k c = .err e →
      resultFor policy now env (k, c) = ⟨c, false, some (derefError e), k⟩) ∧
    (∀ k c z verr, ¬ now < getRefreshTime policy c →
      env.writeOutcome k c = .ok z (some verr) →
      resultFor policy now env (k, c) = ⟨c, false, some (derefError verr), k⟩) ∧
    (∀ k c z, ¬ now < getRefreshTime policy c → env.writeOutcome k c = .ok z none →
      resultFor policy now env (k, c) = ⟨z, true, none, k⟩) ∧
    (∀ k c, (resultFor policy now env (k, c)).refreshed = false →
      finalCapabilityFor policy now env (k, c) = c) := by
  rw [refreshZcaps_ok_unfold now env config policy hz hp]
  refine ⟨?_, ⟨_, rfl, ?_⟩, ?_, ?_, ?_, ?_⟩
  · show some (config.zcaps.foldl (refreshStep policy now env)
        ⟨config.zcaps, now + DEFAULT_MAX_REFRESH_AFTER, []⟩).results = _
    rw [refreshLoop_results]
    rfl
  · intro k c hmem
    exact refreshLoop_zcaps_lookup policy now env config.zcaps _ hnd k c hmem
      (zcapsLookup_of_mem_nodup config.zcaps hnd k c hmem)
  · intro k c e hdue hw
    simp [resultFor, if_neg hdue, refreshCapability, hw]
  · intro k c z verr hdue hw
    simp [resultFor, if_neg hdue, refreshCapability, hw]
  · intro k c z hdue hw
    simp [resultFor, if_neg hdue, refreshCapability, hw]
  · intro k c hr
    simp [finalCapabilityFor, hr]

/-- Claim C3 witness: on `configC1` under `envC1` the results array is the
per-entry map of `resultFor`. -/
theorem refreshZcaps_partial_failure_isolation_witness :
    hasRefreshZcap configC1 = true ∧
    (configC1.zcaps.map Prod.fst).Nodup ∧
    (refreshZcaps 0 envC1 configC1).results =
      some (configC1.zcaps.map (resultFor ⟨.disabled⟩ 0 envC1)) := by
  refine ⟨by decide, by simp [configC1], ?_⟩
  exact (refreshZcaps_partial_failure_isolation 0 envC1 configC1 ⟨.disabled⟩
    (by decide) rfl (by simp [configC1])).1

/-- Claim C6 (amended): the `upsert` loop classifies errors as follows. A
read error not named `NotFoundError` propagates; a mutator error not named
`NotFoundError` propagates with no retry; a mutator (or read) error named
`NotFoundError` is treated as document absence and switches the iteration
to creating a new document; an `InvalidStateError` from the conditional
write loops and retries; a `DuplicateError` while creating re-reads and —
when the re-read succeeds — loops to update, while an error of the
re-read propagates; a `DuplicateError` while updating an existing
document propagates; any other write error propagates; and a successful
write ends the loop with the stored document. -/
theorem upsert_retry_classification
    (mutatorPresent : Bool) (content : Content) (meta : Nat)
    (it : UpsertIter) (rest : List UpsertIter) :
    (∀ e, it.readResult = .error e → e.name ≠ "NotFoundError" →
      upsert mutatorPresent content meta (it :: rest) = .err e) ∧
    (∀ doc e, it.readResult = .ok doc → mutatorPresent = true →
      it.mutatorResult = .error e → e.name ≠ "NotFoundError" →
      upsert mutatorPresent content meta (it :: rest) = .err e) ∧
    (∀ doc e, it.readResult = .ok doc → mutatorPresent = true →
      it.mutatorResult = .error e → e.name = "NotFoundError" →
      upsertPrepare mutatorPresent content meta it =
        .ok (⟨it.newDocId, content, meta⟩, true)) ∧
    (∀ doc isNew e, upsertPrepare mutatorPresent content meta it = .ok (doc, isNew) →
      it.updateResult = .error e → e.name = "InvalidStateError" →
      upsert mutatorPresent content meta (it :: rest) =
        upsert mutatorPresent content meta rest) ∧
    (∀ doc e d, upsertPrepare mutatorPresent content meta it = .ok (doc, true) →
      it.updateResult = .error e → e.name = "DuplicateError" → it.rereadResult = .ok d →
      upsert mutatorPresent content meta (it :: rest) =
        upsert mutatorPresent content meta rest) ∧
    (∀ doc e e2, upsertPrepare mutatorPresent content meta it = .ok (doc, true) →
      it.updateResult = .error e → e.name = "DuplicateError" →
      it.rereadResult = .error e2 →
      upsert mutatorPresent content meta (it :: rest) = .err e2) ∧
    (∀ doc e, upsertPrepare mutatorPresent content meta it = .ok (doc, false) →
      it.updateResult = .error e → e.name = "DuplicateError" →
      upsert mutatorPresent content meta (it :: rest) = .err e) ∧
    (∀ doc isNew e, upsertPrepare mutatorPresent content meta it = .ok (doc, isNew) →
      it.updateResult = .error e → e.name ≠ "DuplicateError" →
      e.name ≠ "InvalidStateError" →
      upsert mutatorPresent content meta (it :: rest) = .err e) ∧
    (∀ doc isNew d, upsertPrepare mutatorPresent content meta it = .ok (doc, isNew) →
      it.updateResult = .ok d →
      upsert mutatorPresent content meta (it :: rest) = .ok d) := by
  refine ⟨?_, ?_, ?_, ?_, ?_, ?_, ?_, ?_, ?_⟩
  · intro e h1 h2
    simp only [upsert, upsertPrepare, h1]
    rw [if_neg h2]
  · intro doc e h1 hm h2 h3
    simp only [upsert, upsertPrepare, h1, hm, if_true, h2]
    rw [if_neg h3]
  · intro doc e h1 hm h2 h3
    simp only [upsertPrepare, h1, hm, if_true, h2]
    rw [if_pos h3]
  · intro doc isNew e hprep hupd hname
    simp only [upsert, hprep, hupd]
    rw [if_neg (by simp [hname]), if_neg (by simp [hname])]
  · intro doc e d hprep hupd hname hre
    simp only [upsert, hprep, hupd, hre]
    rw [if_pos ⟨hname, trivial⟩]
  · intro doc e e2 hprep hupd hname hre
    simp only [upsert, hprep, hupd, hre]
    rw [if_pos ⟨hname, trivial⟩]
  · intro doc e hprep hupd hname
    simp only [upsert, hprep, hupd]
    rw [if_neg (by simp), if_pos (by simp [hname])]
  · intro doc isNew e hprep hupd h1 h2
    simp only [upsert, hprep, hupd]
    rw [if_neg (by simp [h1]), if_pos h2]
  · intro doc isNew d hprep hupd
    simp only [upsert, hprep, hupd]

/-- Claim C6 amended-theorem witness: a concrete iteration whose
conditional write fails with `InvalidStateError` loops to the next
iteration. -/
theorem upsert_retry_classification_witness :
    upsertPrepare true contentC6 0 iterC6b = .ok (docExistingC6, false) ∧
    upsert true contentC6 0 [iterC6b] = upsert true contentC6 0 [] := by
  refine ⟨rfl, ?_⟩
  exact (upsert_retry_classification true contentC6 0 iterC6b []).2.2.2.1
    docExistingC6 false ⟨"InvalidStateError", none⟩ rfl rfl rfl

/-- Claim C9: `DocumentStore.delete` is idempotent on absence. Whatever
way the document turns out to be absent — the lookup by content id finds
nothing, the get by EDV doc id reports `NotFoundError`, or the backing
delete itself reports `NotFoundError` because of a concurrent delete —
the attempt returns `{deleted: false}` instead of throwing; the
read-cache entry for the known content id is cleared regardless of the
outcome (also on a successful delete), and the non-throwing result
surfaces unchanged through the retry wrapper. -/
theorem documentStore_delete_idempotent_absence
    (id docId : Option String) (env : DeleteEnv) :
    (truthy docId = false → env.findByContentId = .ok none →
      deleteAttempt id docId env = ⟨.ok ⟨false, none⟩, clearFor id⟩) ∧
    (∀ e, truthy docId = true → env.getByDocId = .error e → e.name = "NotFoundError" →
      deleteAttempt id docId env = ⟨.ok ⟨false, none⟩, clearFor id⟩) ∧
    (∀ doc e, truthy docId = false → env.findByContentId = .ok (some doc) →
      env.deleteOutcome = .error e → e.name = "NotFoundError" →
      deleteAttempt id docId env = ⟨.ok ⟨false, none⟩, clearFor id⟩) ∧
    (∀ doc e, truthy docId = true → env.getByDocId = .ok doc →
      env.deleteOutcome = .error e → e.name = "NotFoundError" →
      deleteAttempt id docId env = ⟨.ok ⟨false, none⟩, clearFor (some doc.content.id)⟩) ∧
    (∀ doc, truthy docId = false → env.findByContentId = .ok (some doc) →
      env.deleteOutcome = .ok () →
      deleteAttempt id docId env = ⟨.ok ⟨true, some doc⟩, clearFor id⟩) ∧
    (∀ doc, truthy docId = true → env.getByDocId = .ok doc →
      env.deleteOutcome = .ok () →
      deleteAttempt id docId env = ⟨.ok ⟨true, some doc⟩, clearFor (some doc.content.id)⟩) ∧
    (truthy id = true → truthy docId = false → env.findByContentId = .ok none →
      documentStoreDelete id docId [env] = ⟨.done ⟨false, none⟩, clearFor id⟩) := by
  refine ⟨?_, ?_, ?_, ?_, ?_, ?_, ?_⟩
  · intro h1 h2
    simp [deleteAttempt, h1, h2]
  · intro e h1 h2 h3
    simp [deleteAttempt, h1, h2, h3]
  · intro doc e h1 h2 h3 h4
    simp [deleteAttempt, deleteFound, h1, h2, h3, h4]
  · intro doc e h1 h2 h3 h4
    simp [deleteAttempt, deleteFound, h1, h2, h3, h4]
  · intro doc h1 h2 h3
    simp [deleteAttempt, deleteFound, h1, h2, h3]
  · intro doc h1 h2 h3
    simp [deleteAttempt, deleteFound, h1, h2, h3]
  · intro h1 h2 h3
    simp [documentStoreDelete, deleteLoop, deleteAttempt, h1, h2, h3]

/-- Claim C9 witness: deleting by a content id that matches no stored
document returns `{deleted: false}` and clears the cache entry for that
id. -/
theorem documentStore_delete_idempotent_absence_witness :
    deleteAttempt (some "doc1") none envC9 = ⟨.ok ⟨false, none⟩, ["doc1"]⟩ := by
  have h := (documentStore_delete_idempotent_absence (some "doc1") none envC9).1 rfl rfl
  simpa [clearFor] using h

end ServiceAgent
